import Mathlib

/-!
# Q-Manager: verification of the worker / detection subsystem

A shallow embedding of the parts of `src-tauri/src/workers/` (detection.rs,
account_worker.rs, manager.rs, cache.rs) that the specification's claims are
about, together with proofs settling each claim.

Conventions:
* Rust `i64`/`i32` values are modelled as `Int` (overflow never occurs at the
  magnitudes involved; where Rust saturates, the model saturates explicitly).
* Fallible Rust code (`Result<_, String>`) is modelled with `Except String`.
* The `regex` crate is abstracted as a `RegexEngine`: a deterministic compile
  function from pattern strings to either an error message or a matcher.
* Randomness (`rand::thread_rng().gen_range`) is modelled by explicit draw
  arguments, reduced into range with `%` exactly where the code draws.
-/

namespace QManager

/-- Substring containment, modelling Rust `str::contains(&str)`:
the pattern occurs contiguously inside the text. -/
def containsSubstr (text pat : String) : Bool :=
  decide (pat.toList <:+: text.toList)

/-- Abstract, deterministic regex engine modelling `regex::Regex::new` +
`Regex::is_match`: compiling a pattern either fails with an error message or
yields a matcher on texts. -/
structure RegexEngine where
  compile : String → Except String (String → Bool)

/-- Payload of `crate::events::emit_regex_validation(scope, pattern, error)`. -/
structure RegexValidationEvent where
  scope : String
  pattern : String
  error : String
deriving Repr, DecidableEq

/-! ## Data model (src/db/operations.rs, src/workers/detection.rs) -/

/-- `db::PhasePattern` (operations.rs). -/
structure PhasePattern where
  id : Int
  phase_id : Int
  pattern : String
  is_regex : Bool
  enabled : Bool
  priority : Int
deriving Repr, DecidableEq

/-- `db::Action` (operations.rs). -/
structure Action where
  id : Int
  name : String
  button_type : String
  random_fallback_enabled : Bool
  is_two_step : Bool
deriving Repr, DecidableEq

/-- `db::ActionPattern` (operations.rs). -/
structure ActionPattern where
  id : Int
  action_id : Int
  pattern : String
  is_regex : Bool
  enabled : Bool
  priority : Int
  step : Int
deriving Repr, DecidableEq

/-- `detection.rs` `CompiledPattern`. -/
structure CompiledPattern where
  id : Int
  phase_name : String
  pattern : String
  is_regex : Bool
  priority : Int
  phase_priority : Int
deriving Repr, DecidableEq

/-- `detection.rs` `CompiledActionPattern`. -/
structure CompiledActionPattern where
  id : Int
  action_id : Int
  action_name : String
  pattern : String
  is_regex : Bool
  priority : Int
  step : Int
deriving Repr, DecidableEq

/-- `detection.rs` `InlineButton`. -/
structure InlineButton where
  text : String
  callback_data : Option String
  url : Option String
deriving Repr, DecidableEq

/-- `detection.rs` `MessageEvent`. -/
structure MessageEvent where
  text : String
  chat_id : Int
  is_private : Bool
  sender_id : Int
  buttons : List InlineButton
deriving Repr, DecidableEq

/-- `detection.rs` `DetectionResult`. -/
inductive DetectionResult where
  | phase (phase_name : String) (pattern_id : Int) (priority : Int)
  | action (action_id : Int) (action_name : String) (pattern_id : Int)
      (priority : Int) (step : Int)
deriving Repr, DecidableEq

/-- The priority key a `DetectionResult` carries (read by the final sort in
`DetectionPipeline::process`). -/
def DetectionResult.priority : DetectionResult → Int
  | .phase _ _ p => p
  | .action _ _ _ p _ => p

/-- Whether a result is a phase result. -/
def DetectionResult.isPhase : DetectionResult → Bool
  | .phase _ _ _ => true
  | .action _ _ _ _ _ => false

/-! ## Stable sorting

Rust `slice::sort_by` is a stable sort; we model it by a stable insertion
sort parameterised by a boolean comparison `le` (where `le a b = true` means
`a` may stay before `b`). -/

/-- Insert `a` into `l`, before the first element `b` with `le a b`. -/
def insertSorted (le : α → α → Bool) (a : α) : List α → List α
  | [] => [a]
  | b :: l => if le a b then a :: b :: l else b :: insertSorted le a l

/-- Stable insertion sort: sorts while preserving the relative order of
elements that compare equal (as Rust `sort_by` does). -/
def stableSort (le : α → α → Bool) : List α → List α
  | [] => []
  | a :: l => insertSorted le a (stableSort le l)

theorem insertSorted_perm (le : α → α → Bool) (a : α) (l : List α) :
    List.Perm (insertSorted le a l) (a :: l) := by
  induction l with
  | nil => simp [insertSorted]
  | cons b l ih =>
    simp only [insertSorted]
    by_cases h : le a b = true
    · simp [h]
    · simp only [h, if_false]
      exact (List.Perm.cons b ih).trans (List.Perm.swap a b l)

theorem stableSort_perm (le : α → α → Bool) (l : List α) :
    List.Perm (stableSort le l) l := by
  induction l with
  | nil => simp [stableSort]
  | cons a l ih =>
    exact (insertSorted_perm le a (stableSort le l)).trans (List.Perm.cons a ih)

theorem insertSorted_pairwise (le : α → α → Bool)
    (htot : ∀ x y, le x y = true ∨ le y x = true)
    (htrans : ∀ x y z, le x y = true → le y z = true → le x z = true)
    (a : α) (l : List α) (hl : l.Pairwise (fun x y => le x y = true)) :
    (insertSorted le a l).Pairwise (fun x y => le x y = true) := by
  induction l with
  | nil => simp [insertSorted]
  | cons b l ih =>
    rcases List.pairwise_cons.mp hl with ⟨hb, hl2⟩
    simp only [insertSorted]
    by_cases h : le a b = true
    · simp only [h, if_true]
      refine List.pairwise_cons.mpr ⟨?_, hl⟩
      intro x hx
      rcases List.mem_cons.mp hx with rfl | hx
      · exact h
      · exact htrans a b x h (hb x hx)
    · simp only [h, if_false]
      refine List.pairwise_cons.mpr ⟨?_, ih hl2⟩
      intro x hx
      have hx2 := (insertSorted_perm le a l).mem_iff.mp hx
      rcases List.mem_cons.mp hx2 with hxa | hx3
      · rw [hxa]
        rcases htot a b with hab | hba
        · exact absurd hab h
        · exact hba
      · exact hb x hx3

theorem stableSort_pairwise (le : α → α → Bool)
    (htot : ∀ x y, le x y = true ∨ le y x = true)
    (htrans : ∀ x y z, le x y = true → le y z = true → le x z = true)
    (l : List α) :
    (stableSort le l).Pairwise (fun x y => le x y = true) := by
  induction l with
  | nil => simp [stableSort]
  | cons a l ih => exact insertSorted_pairwise le htot htrans a _ ih

theorem filter_insertSorted (le : α → α → Bool) (p : α → Bool)
    (hpl : ∀ x y, p x = true → p y = true → le x y = true)
    (a : α) (l : List α) :
    (insertSorted le a l).filter p =
      if p a then a :: l.filter p else l.filter p := by
  induction l with
  | nil =>
    simp only [insertSorted]
    cases hpa : p a <;> simp [List.filter_cons, hpa]
  | cons b l ih =>
    simp only [insertSorted]
    by_cases h : le a b = true
    · simp only [h, if_true]
      cases hpa : p a <;> simp [List.filter_cons, hpa]
    · simp only [h, if_false]
      cases hpb : p b
      · simp [List.filter_cons, hpb, ih]
      · have hpa : p a = false := by
          cases hpa2 : p a
          · rfl
          · exact absurd (hpl a b hpa2 hpb) h
        simp [List.filter_cons, hpb, hpa, ih]

theorem filter_stableSort (le : α → α → Bool) (p : α → Bool)
    (hpl : ∀ x y, p x = true → p y = true → le x y = true)
    (l : List α) :
    (stableSort le l).filter p = l.filter p := by
  induction l with
  | nil => simp [stableSort]
  | cons a l ih =>
    rw [stableSort, filter_insertSorted le p hpl, ih, List.filter_cons]

/-- Lists of length at most one that are permutations of each other are
equal. -/
theorem perm_eq_of_length_le_one {l₁ l₂ : List α} (h : List.Perm l₁ l₂)
    (hlen : l₁.length ≤ 1) : l₁ = l₂ :=
  match l₁, h, hlen with
  | [], h, _ => (h.symm.eq_nil).symm
  | [_], h, _ => (List.perm_singleton.mp h.symm).symm
  | _ :: _ :: _, _, hlen => by simp at hlen

/-! ## Detection pipeline (src/workers/detection.rs) -/

/-- `DetectionPipeline::matches` (detection.rs, lines 212-225): regex patterns
are compiled (via `get_regex`); a compile failure is reported through
`emit_regex_validation` with the scope (defaulting to `"unknown"`) and never
matches; non-regex patterns use substring containment. Returns the match
result together with the emitted event, if any. -/
def matchesWith (engine : RegexEngine) (text pat : String) (is_regex : Bool)
    (scope : Option String) : Bool × Option RegexValidationEvent :=
  if is_regex then
    match engine.compile pat with
    | .ok f => (f text, none)
    | .error err => (false, some ⟨scope.getD "unknown", pat, err⟩)
  else
    (containsSubstr text pat, none)

/-- Comparator used by `load_phase_patterns`: phase priority descending, then
pattern priority descending (`b.phase_priority.cmp(&a.phase_priority)
.then_with(|| b.priority.cmp(&a.priority))`). -/
def phasePatternLe (a b : CompiledPattern) : Bool :=
  decide (b.phase_priority < a.phase_priority ∨
    (b.phase_priority = a.phase_priority ∧ b.priority ≤ a.priority))

/-- Comparator used by `load_action_patterns`: priority descending. -/
def actionPatternLe (a b : CompiledActionPattern) : Bool :=
  decide (b.priority ≤ a.priority)

/-- Comparator of the final sort in `DetectionPipeline::process`:
result priority descending. -/
def resultLe (a b : DetectionResult) : Bool :=
  decide (b.priority ≤ a.priority)

/-- `DetectionPipeline::load_phase_patterns` (detection.rs, lines 121-140):
keep enabled patterns, compile to `CompiledPattern`, and stable-sort by
phase priority descending then pattern priority descending. -/
def load_phase_patterns (patterns : List (PhasePattern × String × Int)) :
    List CompiledPattern :=
  stableSort phasePatternLe
    ((patterns.filter (fun p => p.1.enabled)).map (fun p =>
      { id := p.1.id, phase_name := p.2.1, pattern := p.1.pattern,
        is_regex := p.1.is_regex, priority := p.1.priority,
        phase_priority := p.2.2 }))

/-- Lookup in the `HashMap<i64, &Action>` built by `load_action_patterns`
from the actions list: later inserts overwrite earlier ones, so the last
action with a given id wins. -/
def actionLookup (actions : List Action) (id : Int) : Option Action :=
  (actions.filter (fun a => a.id == id)).getLast?

/-- `DetectionPipeline::load_action_patterns` (detection.rs, lines 143-164):
keep enabled patterns whose action exists, compile, and stable-sort by
priority descending. -/
def load_action_patterns (actions : List Action) (patterns : List ActionPattern) :
    List CompiledActionPattern :=
  stableSort actionPatternLe
    ((patterns.filter (fun p => p.enabled)).filterMap (fun p =>
      (actionLookup actions p.action_id).map (fun a =>
        { id := p.id, action_id := p.action_id, action_name := a.name,
          pattern := p.pattern, is_regex := p.is_regex,
          priority := p.priority, step := p.step })))

/-- `detection.rs` `DetectionPipeline` state after loading. -/
structure DetectionPipeline where
  phase_patterns : List CompiledPattern
  action_patterns : List CompiledActionPattern

/-- The phase result built for a matching phase pattern (its priority key is
`phase_priority * 1000 + priority`, detection.rs line 176). -/
def mkPhaseResult (p : CompiledPattern) : DetectionResult :=
  .phase p.phase_name p.id (p.phase_priority * 1000 + p.priority)

/-- The action result built for a matching action pattern
(detection.rs lines 185-191). -/
def mkActionResult (p : CompiledActionPattern) : DetectionResult :=
  .action p.action_id p.action_name p.id p.priority p.step

/-- Whether a phase pattern matches the message text (scope `"phase"`). -/
def phaseMatchB (engine : RegexEngine) (text : String) (p : CompiledPattern) :
    Bool :=
  (matchesWith engine text p.pattern p.is_regex (some "phase")).1

/-- Whether an action pattern matches the message text (scope `"action"`). -/
def actionMatchB (engine : RegexEngine) (text : String)
    (p : CompiledActionPattern) : Bool :=
  (matchesWith engine text p.pattern p.is_regex (some "action")).1

/-- The phase loop of `DetectionPipeline::process` (detection.rs, lines
171-180): walk the sorted phase patterns, push a result for the first match,
then `break`. -/
def phaseScan (engine : RegexEngine) (text : String) :
    List CompiledPattern → List DetectionResult
  | [] => []
  | p :: rest =>
    if phaseMatchB engine text p then [mkPhaseResult p]
    else phaseScan engine text rest

/-- The action loop of `DetectionPipeline::process` (detection.rs, lines
183-193): push a result for every matching action pattern. -/
def actionScan (engine : RegexEngine) (text : String)
    (l : List CompiledActionPattern) : List DetectionResult :=
  l.filterMap (fun p =>
    if actionMatchB engine text p then some (mkActionResult p) else none)

/-- `DetectionPipeline::process` (detection.rs, lines 167-209): the phase
loop result followed by the action loop results, stable-sorted by priority
descending (`sort_by` is stable). -/
def DetectionPipeline.process (pipe : DetectionPipeline) (engine : RegexEngine)
    (event : MessageEvent) : List DetectionResult :=
  stableSort resultLe
    (phaseScan engine event.text pipe.phase_patterns ++
      actionScan engine event.text pipe.action_patterns)

theorem phaseScan_eq_find (engine : RegexEngine) (text : String)
    (l : List CompiledPattern) :
    phaseScan engine text l =
      ((l.find? (phaseMatchB engine text)).map mkPhaseResult).toList := by
  induction l with
  | nil => simp [phaseScan]
  | cons p rest ih =>
    simp only [phaseScan, List.find?]
    cases h : phaseMatchB engine text p
    · simp [h, ih]
    · simp [h]

theorem phaseScan_length_le_one (engine : RegexEngine) (text : String)
    (l : List CompiledPattern) :
    (phaseScan engine text l).length ≤ 1 := by
  rw [phaseScan_eq_find]
  cases (l.find? (phaseMatchB engine text)) <;> simp

theorem actionScan_eq_map_filter (engine : RegexEngine) (text : String)
    (l : List CompiledActionPattern) :
    actionScan engine text l =
      (l.filter (actionMatchB engine text)).map mkActionResult := by
  induction l with
  | nil => simp [actionScan]
  | cons p rest ih =>
    simp only [actionScan, List.filterMap_cons, List.filter_cons]
    cases h : actionMatchB engine text p
    · simpa [h] using ih
    · simpa [h] using ih

theorem phaseScan_all_phase (engine : RegexEngine) (text : String)
    (l : List CompiledPattern) :
    ∀ r ∈ phaseScan engine text l, r.isPhase = true := by
  intro r hr
  rw [phaseScan_eq_find] at hr
  cases h : l.find? (phaseMatchB engine text) with
  | none => rw [h] at hr; simp at hr
  | some p =>
    rw [h] at hr
    simp at hr
    rw [hr]
    rfl

theorem actionScan_none_phase (engine : RegexEngine) (text : String)
    (l : List CompiledActionPattern) :
    ∀ r ∈ actionScan engine text l, r.isPhase = false := by
  intro r hr
  rw [actionScan_eq_map_filter] at hr
  rcases List.mem_map.mp hr with ⟨p, _, rfl⟩
  rfl

theorem resultLe_total (x y : DetectionResult) :
    resultLe x y = true ∨ resultLe y x = true := by
  simp only [resultLe, decide_eq_true_eq]
  exact (Int.le_total y.priority x.priority).imp id id

theorem resultLe_trans (x y z : DetectionResult) :
    resultLe x y = true → resultLe y z = true → resultLe x z = true := by
  simp only [resultLe, decide_eq_true_eq]
  intro h1 h2
  exact le_trans h2 h1

/-- `AccountWorker::load_detection_patterns` feeds both loaders
(account_worker.rs, lines 300-355): the pipeline state a worker processes
messages with. -/
def loadedPipeline (raw : List (PhasePattern × String × Int))
    (actions : List Action) (aps : List ActionPattern) : DetectionPipeline :=
  { phase_patterns := load_phase_patterns raw,
    action_patterns := load_action_patterns actions aps }

theorem process_perm (pipe : DetectionPipeline) (engine : RegexEngine)
    (event : MessageEvent) :
    List.Perm (pipe.process engine event)
      (phaseScan engine event.text pipe.phase_patterns ++
        actionScan engine event.text pipe.action_patterns) :=
  stableSort_perm resultLe _

theorem process_filter_isPhase (pipe : DetectionPipeline)
    (engine : RegexEngine) (event : MessageEvent) :
    (pipe.process engine event).filter (fun r => r.isPhase) =
      phaseScan engine event.text pipe.phase_patterns := by
  have hperm := ((process_perm pipe engine event).filter (fun r => r.isPhase))
  have hbase : (phaseScan engine event.text pipe.phase_patterns ++
      actionScan engine event.text pipe.action_patterns).filter
        (fun r => r.isPhase) =
      phaseScan engine event.text pipe.phase_patterns := by
    rw [List.filter_append]
    rw [List.filter_eq_self.mpr (phaseScan_all_phase engine event.text _)]
    rw [List.filter_eq_nil_iff.mpr ?_, List.append_nil]
    intro r hr
    simp [actionScan_none_phase engine event.text _ r hr]
  rw [hbase] at hperm
  refine perm_eq_of_length_le_one hperm ?_
  calc ((pipe.process engine event).filter (fun r => r.isPhase)).length
      = (phaseScan engine event.text pipe.phase_patterns).length :=
        hperm.length_eq
    _ ≤ 1 := phaseScan_length_le_one engine event.text _

/-- C1: for every message event and every loaded pattern set,
`DetectionPipeline::process` produces at most one phase result
(first-match-wins over the phase list sorted by phase priority descending
then pattern priority descending), collects every matching loaded action
pattern, and returns the combined list sorted descending by the stored
priority key (`phase.priority*1000 + pattern.priority` for phases,
`pattern.priority` for actions), with ties resolved by insertion order
(phase results before action results of equal key). -/
theorem c1_process_first_match_collect_sort
    (engine : RegexEngine) (raw : List (PhasePattern × String × Int))
    (actions : List Action) (aps : List ActionPattern) (event : MessageEvent) :
    (((loadedPipeline raw actions aps).process engine event).filter
        (fun r => r.isPhase)).length ≤ 1 ∧
    ((loadedPipeline raw actions aps).process engine event).filter
        (fun r => r.isPhase) =
      ((((loadedPipeline raw actions aps).phase_patterns).find?
        (phaseMatchB engine event.text)).map mkPhaseResult).toList ∧
    List.Perm ((loadedPipeline raw actions aps).process engine event)
      (phaseScan engine event.text (loadedPipeline raw actions aps).phase_patterns ++
        (((loadedPipeline raw actions aps).action_patterns).filter
          (actionMatchB engine event.text)).map mkActionResult) ∧
    ((loadedPipeline raw actions aps).process engine event).Pairwise
      (fun a b => b.priority ≤ a.priority) ∧
    (∀ k : Int,
      ((loadedPipeline raw actions aps).process engine event).filter
          (fun r => r.priority == k) =
        (phaseScan engine event.text (loadedPipeline raw actions aps).phase_patterns ++
          actionScan engine event.text
            (loadedPipeline raw actions aps).action_patterns).filter
          (fun r => r.priority == k)) := by
  refine ⟨?_, ?_, ?_, ?_, ?_⟩
  · rw [process_filter_isPhase]
    exact phaseScan_length_le_one engine event.text _
  · rw [process_filter_isPhase, phaseScan_eq_find]
  · have h := process_perm (loadedPipeline raw actions aps) engine event
    rwa [actionScan_eq_map_filter] at h
  · have h := stableSort_pairwise resultLe resultLe_total resultLe_trans
      (phaseScan engine event.text (loadedPipeline raw actions aps).phase_patterns ++
        actionScan engine event.text (loadedPipeline raw actions aps).action_patterns)
    exact h.imp (fun hxy => by
      simpa [resultLe, decide_eq_true_eq] using hxy)
  · intro k
    exact filter_stableSort resultLe (fun r => r.priority == k)
      (fun x y hx hy => by
        simp only [beq_iff_eq] at hx hy
        simp [resultLe, hx, hy]) _

/-! ## Regex cache (detection.rs, lines 16-49) and determinism -/

/-- `constants.rs` `REGEX_CACHE_MAX_SIZE`. -/
def REGEX_CACHE_MAX_SIZE : Nat := 500

/-- The global LRU regex cache (detection.rs, lines 19-23), modelled as an
association list from pattern strings to compiled matchers, most recent
first; insertion trims to capacity (LRU eviction). Recency promotion on a
hit does not change lookup results and is not modelled. -/
structure RegexCache where
  entries : List (String × (String → Bool))

/-- The cache before any pattern has been compiled. -/
def emptyRegexCache : RegexCache := ⟨[]⟩

/-- `get_regex` (detection.rs, lines 26-43): return the cached matcher for
the pattern if present; otherwise compile it, cache the result, and return
it; a compile failure is returned as an error and nothing is cached. -/
def get_regex (engine : RegexEngine) (c : RegexCache) (pat : String) :
    Except String ((String → Bool) × RegexCache) :=
  match c.entries.find? (fun e => e.1 == pat) with
  | some e => .ok (e.2, c)
  | none =>
    match engine.compile pat with
    | .error err => .error err
    | .ok f => .ok (f, ⟨((pat, f) :: c.entries).take REGEX_CACHE_MAX_SIZE⟩)

/-- `DetectionPipeline::matches` with the regex cache threaded through
explicitly (in the code the cache is a global). -/
def matchesCached (engine : RegexEngine) (c : RegexCache)
    (text pat : String) (is_regex : Bool) : Bool × RegexCache :=
  if is_regex then
    match get_regex engine c pat with
    | .ok (f, c2) => (f text, c2)
    | .error _ => (false, c)
  else (containsSubstr text pat, c)

/-- The phase loop of `process` with the cache threaded through. -/
def phaseScanCached (engine : RegexEngine) (text : String) :
    RegexCache → List CompiledPattern → List DetectionResult × RegexCache
  | c, [] => ([], c)
  | c, p :: rest =>
    match matchesCached engine c text p.pattern p.is_regex with
    | (true, c2) => ([mkPhaseResult p], c2)
    | (false, c2) => phaseScanCached engine text c2 rest

/-- The action loop of `process` with the cache threaded through. -/
def actionScanCached (engine : RegexEngine) (text : String) :
    RegexCache → List CompiledActionPattern → List DetectionResult × RegexCache
  | c, [] => ([], c)
  | c, p :: rest =>
    match matchesCached engine c text p.pattern p.is_regex with
    | (b, c2) =>
      let rec2 := actionScanCached engine text c2 rest
      (if b then mkActionResult p :: rec2.1 else rec2.1, rec2.2)

/-- `DetectionPipeline::process` with the global regex cache threaded
through: phase loop, action loop, final stable sort. -/
def DetectionPipeline.processCached (pipe : DetectionPipeline)
    (engine : RegexEngine) (c : RegexCache) (event : MessageEvent) :
    List DetectionResult × RegexCache :=
  let pr := phaseScanCached engine event.text c pipe.phase_patterns
  let ar := actionScanCached engine event.text pr.2 pipe.action_patterns
  (stableSort resultLe (pr.1 ++ ar.1), ar.2)

/-- A cache is coherent when every cached matcher is what the engine
compiles its pattern to (true of the real cache, which is only ever filled
from successful `Regex::new` runs on the same pattern string). -/
def Coherent (engine : RegexEngine) (c : RegexCache) : Prop :=
  ∀ p f, (p, f) ∈ c.entries → engine.compile p = .ok f

theorem coherent_empty (engine : RegexEngine) :
    Coherent engine emptyRegexCache := by
  intro p f h
  simp [emptyRegexCache] at h

theorem get_regex_coherent (engine : RegexEngine) (c : RegexCache)
    (pat : String) (hc : Coherent engine c) :
    (∀ f c2, get_regex engine c pat = .ok (f, c2) →
      engine.compile pat = .ok f ∧ Coherent engine c2) ∧
    (∀ err, get_regex engine c pat = .error err →
      engine.compile pat = .error err) := by
  constructor
  · intro f c2 h
    simp only [get_regex] at h
    cases hfind : c.entries.find? (fun e => e.1 == pat) with
    | some e =>
      rw [hfind] at h
      have hmem := List.mem_of_find?_eq_some hfind
      have hkey : e.1 = pat := by
        have := List.find?_some hfind
        simpa using this
      rcases h with ⟨rfl, rfl⟩
      exact ⟨hkey ▸ hc e.1 e.2 (by simpa using hmem), hc⟩
    | none =>
      rw [hfind] at h
      cases hcomp : engine.compile pat with
      | error err => rw [hcomp] at h; cases h
      | ok f2 =>
        rw [hcomp] at h
        have hpair := Except.ok.inj h
        have hf : f = f2 := (congrArg Prod.fst hpair).symm
        have hc2 : c2 = ⟨((pat, f2) :: c.entries).take REGEX_CACHE_MAX_SIZE⟩ :=
          (congrArg Prod.snd hpair).symm
        subst hc2
        refine ⟨by rw [hf], ?_⟩
        intro p g hm
        have hm2 : (p, g) ∈ (pat, f2) :: c.entries := List.mem_of_mem_take hm
        rcases List.mem_cons.mp hm2 with heq | hm3
        · have hp : p = pat := congrArg Prod.fst heq
          have hg : g = f2 := congrArg Prod.snd heq
          rw [hp, hg]
          exact hcomp
        · exact hc p g hm3
  · intro err h
    simp only [get_regex] at h
    cases hfind : c.entries.find? (fun e => e.1 == pat) with
    | some e => rw [hfind] at h; cases h
    | none =>
      rw [hfind] at h
      cases hcomp : engine.compile pat with
      | error e2 => rw [hcomp] at h; cases h; rfl
      | ok f2 => rw [hcomp] at h; cases h

theorem matchesCached_spec (engine : RegexEngine) (c : RegexCache)
    (text pat : String) (is_regex : Bool) (scope : Option String)
    (hc : Coherent engine c) :
    (matchesCached engine c text pat is_regex).1 =
      (matchesWith engine text pat is_regex scope).1 ∧
    Coherent engine (matchesCached engine c text pat is_regex).2 := by
  cases is_regex
  · simpa [matchesCached, matchesWith] using hc
  · simp only [matchesCached, matchesWith]
    cases hg : get_regex engine c pat with
    | ok fc =>
      have hok := ((get_regex_coherent engine c pat hc).1 fc.1 fc.2 (by
        rw [hg]))
      rw [hok.1]
      exact ⟨rfl, hok.2⟩
    | error err =>
      have herr := (get_regex_coherent engine c pat hc).2 err hg
      rw [herr]
      exact ⟨rfl, hc⟩

theorem phaseScanCached_spec (engine : RegexEngine) (text : String)
    (l : List CompiledPattern) (c : RegexCache) (hc : Coherent engine c) :
    (phaseScanCached engine text c l).1 = phaseScan engine text l ∧
    Coherent engine (phaseScanCached engine text c l).2 := by
  induction l generalizing c with
  | nil => exact ⟨rfl, hc⟩
  | cons p rest ih =>
    have hm := matchesCached_spec engine c text p.pattern p.is_regex
      (some "phase") hc
    simp only [phaseScanCached, phaseScan]
    cases hb : matchesCached engine c text p.pattern p.is_regex with
    | mk b c2 =>
      have hb1 : b = phaseMatchB engine text p := by
        have := hm.1
        rw [hb] at this
        exact this
      have hc2 : Coherent engine c2 := by
        have := hm.2
        rw [hb] at this
        exact this
      cases hpm : phaseMatchB engine text p
      · rw [hb1, hpm]
        simpa [hpm] using ih c2 hc2
      · rw [hb1, hpm]
        simp [hpm, hc2]

theorem actionScanCached_spec (engine : RegexEngine) (text : String)
    (l : List CompiledActionPattern) (c : RegexCache)
    (hc : Coherent engine c) :
    (actionScanCached engine text c l).1 = actionScan engine text l ∧
    Coherent engine (actionScanCached engine text c l).2 := by
  induction l generalizing c with
  | nil => exact ⟨rfl, hc⟩
  | cons p rest ih =>
    have hm := matchesCached_spec engine c text p.pattern p.is_regex
      (some "action") hc
    simp only [actionScanCached, actionScan, List.filterMap_cons]
    cases hb : matchesCached engine c text p.pattern p.is_regex with
    | mk b c2 =>
      have hb1 : b = actionMatchB engine text p := by
        have := hm.1
        rw [hb] at this
        exact this
      have hc2 : Coherent engine c2 := by
        have := hm.2
        rw [hb] at this
        exact this
      have hrest := ih c2 hc2
      cases ham : actionMatchB engine text p
      · rw [hb1, ham]
        simpa [ham, actionScan] using hrest
      · rw [hb1, ham]
        simpa [ham, actionScan] using hrest

theorem processCached_spec (pipe : DetectionPipeline) (engine : RegexEngine)
    (c : RegexCache) (event : MessageEvent) (hc : Coherent engine c) :
    (pipe.processCached engine c event).1 = pipe.process engine event ∧
    Coherent engine (pipe.processCached engine c event).2 := by
  have hp := phaseScanCached_spec engine event.text pipe.phase_patterns c hc
  have ha := actionScanCached_spec engine event.text pipe.action_patterns
    (phaseScanCached engine event.text c pipe.phase_patterns).2 hp.2
  simp only [DetectionPipeline.processCached, DetectionPipeline.process]
  exact ⟨by rw [hp.1, ha.1], ha.2⟩

/-- C9: the detection pipeline is deterministic: with any coherent regex
cache state (in particular the real one, which only ever holds the
deterministic compiler output), running `process` twice on the same
pipeline and the same message event returns the identical result sequence;
moreover both runs return exactly the cache-free result. -/
theorem c9_process_deterministic (pipe : DetectionPipeline)
    (engine : RegexEngine) (c : RegexCache) (event : MessageEvent)
    (hc : Coherent engine c) :
    (pipe.processCached engine c event).1 = pipe.process engine event ∧
    (pipe.processCached engine (pipe.processCached engine c event).2 event).1 =
      (pipe.processCached engine c event).1 := by
  have h1 := processCached_spec pipe engine c event hc
  have h2 := processCached_spec pipe engine
    (pipe.processCached engine c event).2 event h1.2
  exact ⟨h1.1, by rw [h1.1, h2.1]⟩

/-- C8: a pattern matches iff (`is_regex = false` and the text contains the
pattern as a substring) or (`is_regex = true`, the pattern compiles, and the
compiled matcher finds a match anywhere in the text); a pattern whose regex
fails to compile is reported via the regex-validation event (with the given
scope, the pattern and the compile error) and never matches. -/
theorem c8_pattern_match_semantics (engine : RegexEngine) (text pat : String)
    (is_regex : Bool) (scope : Option String) :
    ((matchesWith engine text pat is_regex scope).1 = true ↔
      ((is_regex = false ∧ containsSubstr text pat = true) ∨
        (is_regex = true ∧
          ∃ f, engine.compile pat = .ok f ∧ f text = true))) ∧
    (∀ err, is_regex = true → engine.compile pat = .error err →
      (matchesWith engine text pat is_regex scope).1 = false ∧
      (matchesWith engine text pat is_regex scope).2 =
        some ⟨scope.getD "unknown", pat, err⟩) := by
  constructor
  · cases is_regex
    · simp [matchesWith]
    · cases h : engine.compile pat with
      | ok f => simp [matchesWith, h]
      | error e => simp [matchesWith, h]
  · intro err hreg hcomp
    subst hreg
    simp [matchesWith, hcomp]

/-! ## Concrete material used by witnesses -/

/-- A concrete deterministic regex engine for witnesses: it compiles the
single pattern `"ab"` and rejects every other pattern. -/
def witnessEngine : RegexEngine :=
  ⟨fun p =>
    if p == "ab" then .ok (fun t => containsSubstr t "ab")
    else .error "Invalid regex: unsupported"⟩

/-- Concrete raw phase-pattern rows (pattern, phase name, phase priority). -/
def witnessRawPhases : List (PhasePattern × String × Int) :=
  [(⟨1, 10, "join", false, true, 5⟩, ("join_time", 100)),
   (⟨2, 11, "start", false, true, 3⟩, ("game_start", 90))]

/-- Concrete actions list. -/
def witnessActions : List Action :=
  [⟨7, "Vote", "player_list", true, false⟩]

/-- Concrete action-pattern rows. -/
def witnessActionPatterns : List ActionPattern :=
  [⟨3, 7, "vote now", false, true, 50, 1⟩]

/-- Concrete loaded pipeline. -/
def witnessPipeline : DetectionPipeline :=
  loadedPipeline witnessRawPhases witnessActions witnessActionPatterns

/-- Concrete message event. -/
def witnessEvent : MessageEvent :=
  ⟨"join and vote now", -100, false, 999, []⟩

/-- Witness for C8 at a concrete failing pattern: the compile error is
reported with scope `"phase"` and the pattern never matches. -/
theorem c8_witness :
    (matchesWith witnessEngine "text" "(" true (some "phase")).1 = false ∧
    (matchesWith witnessEngine "text" "(" true (some "phase")).2 =
      some ⟨"phase", "(", "Invalid regex: unsupported"⟩ :=
  (c8_pattern_match_semantics witnessEngine "text" "(" true (some "phase")).2
    "Invalid regex: unsupported" rfl rfl

/-- Witness for C9 at a concrete pipeline, engine and event, starting from
the empty (trivially coherent) cache. -/
theorem c9_witness :
    (witnessPipeline.processCached witnessEngine emptyRegexCache
        witnessEvent).1 =
      witnessPipeline.process witnessEngine witnessEvent :=
  (c9_process_deterministic witnessPipeline witnessEngine emptyRegexCache
    witnessEvent (coherent_empty witnessEngine)).1

/-! ## Account worker data (src/telethon/mod.rs, src/workers/account_worker.rs) -/

/-- `telethon::TelethonButton` (mod.rs, lines 15-21). -/
structure TelethonButton where
  text : String
  kind : String
  data : Option String
  url : Option String
deriving Repr, DecidableEq

instance : Inhabited TelethonButton := ⟨⟨"", "", none, none⟩⟩

/-- `telethon::TelethonMessage` (mod.rs, lines 24-31). -/
structure TelethonMessage where
  id : Int
  chat_id : Int
  sender_id : Int
  text : String
  is_outgoing : Bool
  buttons : List (List TelethonButton)
deriving Repr, DecidableEq

/-- `GroupSlotConfig` (account_worker.rs, lines 44-50). -/
structure GroupSlotConfig where
  group_id : Int
  group_title : String
  moderator_kind : String
  moderator_bot_id : Int
deriving Repr, DecidableEq

/-- `WorkerConfig` (account_worker.rs, lines 53-67); `session_dir` is kept
as a path string. -/
structure WorkerConfig where
  account_id : Int
  account_name : String
  api_id : Int
  api_hash : String
  session_dir : String
  group_slots : List GroupSlotConfig
  group_chat_ids : List Int
  moderator_bot_ids : List Int
  main_bot_id : Option Int
  beta_bot_id : Option Int
  max_join_attempts : Int
  join_cooldown_seconds : Int
deriving Repr, DecidableEq

/-- `AccountWorker::get_moderator_for_group` (account_worker.rs, lines
213-227): the slot moderator for the group when configured and positive,
otherwise the first known moderator bot. -/
def get_moderator_for_group (config : WorkerConfig) (group_id : Int) :
    Option Int :=
  match config.group_slots.find? (fun s => s.group_id == group_id) with
  | some slot =>
    if slot.moderator_bot_id > 0 then some slot.moderator_bot_id
    else config.moderator_bot_ids.head?
  | none => config.moderator_bot_ids.head?

/-- Split a character list at the first occurrence of `sep`; `none` when
`sep` does not occur. -/
def splitFirst (sep : Char) : List Char → Option (List Char × List Char)
  | [] => none
  | c :: cs =>
    if c = sep then some ([], cs)
    else (splitFirst sep cs).map (fun pr => (c :: pr.1, pr.2))

/-- Split a character list on every occurrence of `sep`. -/
def splitOnChar (sep : Char) : List Char → List (List Char)
  | [] => [[]]
  | c :: cs =>
    match splitOnChar sep cs with
    | [] => [[]]
    | g :: gs => if c = sep then [] :: g :: gs else (c :: g) :: gs

/-- `parse_start_parameter` (account_worker.rs, lines 1550-1559): the value
of the first `start` key among the query pairs of the URL.
`url::Url::parse` + `query_pairs` are modelled for well-formed links by
splitting the URL at its first `?`, the query on `&`, and each pair at its
first `=`; scheme validation and percent-decoding are not modelled. -/
def parse_start_parameter (url : String) : Option String :=
  match splitFirst '?' url.toList with
  | none => none
  | some pr =>
    (((splitOnChar '&' pr.2).map (fun pair =>
      match splitFirst '=' pair with
      | some kv => kv
      | none => (pair, ([] : List Char)))).find?
        (fun kv => kv.1 == "start".toList)).map (fun kv => String.mk kv.2)

/-- A request issued to the Telethon subprocess by the click path. -/
inductive OutgoingRequest where
  | click_request (chat_id message_id : Int) (data : String)
  | send_message (chat_id : Int) (text : String)
deriving Repr, DecidableEq

/-- `AccountWorker::click_button` (account_worker.rs, lines 1202-1254),
assuming a live session: the request sent, if any. A `callback` button with
data sends `click_button`; a `url` button whose URL parses as a bot start
link sends `send_message` with body `"/start <param>"` addressed to the
FIRST entry of `config.moderator_bot_ids`; any other button sends
nothing. -/
def click_button (config : WorkerConfig) (chat_id message_id : Int)
    (button : TelethonButton) : Option OutgoingRequest :=
  if button.kind == "callback" then
    button.data.map (fun d => .click_request chat_id message_id d)
  else if button.kind == "url" then
    button.url.bind (fun u =>
      (parse_start_parameter u).bind (fun param =>
        config.moderator_bot_ids.head?.map (fun bot =>
          .send_message bot ("/start " ++ param))))
  else none

/-- Concrete worker configuration: chat `7` has a configured moderator bot
`42`, while the first known moderator bot is `5`. -/
def c2Config : WorkerConfig :=
  { account_id := 1, account_name := "acct", api_id := 1, api_hash := "h",
    session_dir := "sessions", group_slots := [⟨7, "G", "beta", 42⟩],
    group_chat_ids := [7], moderator_bot_ids := [5, 42],
    main_bot_id := some 5, beta_bot_id := some 42,
    max_join_attempts := 3, join_cooldown_seconds := 60 }

/-- Concrete url button carrying a Telegram bot start link. -/
def c2Button : TelethonButton :=
  ⟨"Join", "url", none, some "https://t.me/werewolfbot?start=game42"⟩

/-- C2 counterexample: for a message in chat `7`, whose configured moderator
is bot `42`, the clicked start-link button is answered by a `send_message`
to bot `5` (the first known moderator bot), not to the per-chat moderator
`42` that the claim requires. -/
theorem c2_counterexample :
    click_button c2Config 7 100 c2Button =
      some (.send_message 5 "/start game42") ∧
    get_moderator_for_group c2Config 7 = some 42 ∧
    some (OutgoingRequest.send_message 5 "/start game42") ≠
      some (OutgoingRequest.send_message 42 "/start game42") := by
  refine ⟨by decide, by decide, by decide⟩

/-- C2 amended: when a clicked inline button is of kind `url` and the URL
parses as a Telegram bot start link, the worker sends a `send_message`
request with body `"/start <param>"` addressed to the FIRST known moderator
bot (`config.moderator_bot_ids.first()`), regardless of the per-chat
moderator configured for the message's chat; nothing is sent when no
moderator bot is known. -/
theorem c2_url_click_sends_start_to_first_bot (config : WorkerConfig)
    (chat_id message_id : Int) (button : TelethonButton) (u param : String)
    (hk : button.kind = "url") (hu : button.url = some u)
    (hp : parse_start_parameter u = some param) :
    click_button config chat_id message_id button =
      config.moderator_bot_ids.head?.map (fun bot =>
        .send_message bot ("/start " ++ param)) := by
  simp [click_button, hk, hu, hp]

/-- Witness for the amended C2 at the concrete configuration: the request
goes to bot `5`, the head of `moderator_bot_ids`. -/
theorem c2_witness :
    click_button c2Config 7 100 c2Button =
      some (.send_message 5 "/start game42") := by
  have h := c2_url_click_sends_start_to_first_bot c2Config 7 100 c2Button
    "https://t.me/werewolfbot?start=game42" "game42" rfl rfl (by decide)
  rw [h]
  decide

/-! ## Per-action configuration (src/workers/cache.rs, account_worker.rs) -/

/-- `constants.rs` delay defaults and clamps. -/
def DEFAULT_DELAY_MIN_SECONDS : Int := 2

/-- `constants.rs` `DEFAULT_DELAY_MAX_SECONDS`. -/
def DEFAULT_DELAY_MAX_SECONDS : Int := 8

/-- `constants.rs` `MIN_DELAY_SECONDS`. -/
def MIN_DELAY_SECONDS : Int := 0

/-- `constants.rs` `MAX_DELAY_SECONDS`. -/
def MAX_DELAY_SECONDS : Int := 3600

/-- `cache.rs` `ActionConfig` (lines 27-37). -/
structure ActionConfig where
  target_pairs : List (String × String)
  blacklist : List String
  targets : List String
  delay_min : Int
  delay_max : Int
  button_type : String
  random_fallback_enabled : Bool
  is_two_step : Bool
deriving Repr, DecidableEq

/-- The result of `AccountWorker::get_action_config` (account_worker.rs,
lines 1139-1148): either the per-(account, action) configuration, or the
loader error (for example when the action no longer exists). The worker's
accessors below apply their `unwrap_or` defaults to this value. -/
abbrev ActionConfigResult := Except String ActionConfig

/-- `AccountWorker::is_random_fallback_enabled` (account_worker.rs,
1195-1199): `unwrap_or(true)` on loader failure. -/
def is_random_fallback_enabled (r : ActionConfigResult) : Bool :=
  match r with
  | .ok c => c.random_fallback_enabled
  | .error _ => true

/-- `AccountWorker::get_action_button_type` (account_worker.rs, 1101-1105):
defaults to `"player_list"` on loader failure. -/
def get_action_button_type (r : ActionConfigResult) : String :=
  match r with
  | .ok c => c.button_type
  | .error _ => "player_list"

/-- `AccountWorker::get_delay_settings` (account_worker.rs, 1108-1112):
defaults to `(DEFAULT_DELAY_MIN_SECONDS, DEFAULT_DELAY_MAX_SECONDS)`. -/
def get_delay_settings (r : ActionConfigResult) : Int × Int :=
  match r with
  | .ok c => (c.delay_min, c.delay_max)
  | .error _ => (DEFAULT_DELAY_MIN_SECONDS, DEFAULT_DELAY_MAX_SECONDS)

/-- `AccountWorker::get_target_list` (account_worker.rs, 1126-1130):
defaults to the empty list. -/
def get_target_list (r : ActionConfigResult) : List String :=
  match r with
  | .ok c => c.targets
  | .error _ => []

/-- `AccountWorker::get_blacklist` (account_worker.rs, 1133-1137):
defaults to the empty list. -/
def get_blacklist (r : ActionConfigResult) : List String :=
  match r with
  | .ok c => c.blacklist
  | .error _ => []

/-- `AccountWorker::get_target_pairs` (account_worker.rs, 966-970):
defaults to the empty list. -/
def get_target_pairs (r : ActionConfigResult) : List (String × String) :=
  match r with
  | .ok c => c.target_pairs
  | .error _ => []

/-- `AccountWorker::is_two_step_action` (account_worker.rs, 818-822):
`unwrap_or(false)` on loader failure. -/
def is_two_step_action (r : ActionConfigResult) : Bool :=
  match r with
  | .ok c => c.is_two_step
  | .error _ => false

/-- `i32::MIN`. -/
def I32_MIN : Int := -2147483648

/-- `i32::MAX`. -/
def I32_MAX : Int := 2147483647

/-- Rust `i32::saturating_mul(1000)` on an in-range value. -/
def saturating_mul_1000 (x : Int) : Int :=
  max I32_MIN (min (x * 1000) I32_MAX)

/-- `rand::thread_rng().gen_range(lo..=hi)` modelled with an explicit draw:
for `lo ≤ hi` the result is `lo + draw % (hi - lo + 1)`, an arbitrary value
of the inclusive range. -/
def gen_range_draw (lo hi : Int) (draw : Nat) : Int :=
  lo + (Int.ofNat draw) % (hi - lo + 1)

/-- The delay computation shared by `select_target_button` (account_worker.rs,
lines 986-992) and `calculate_action_delay` (lines 1115-1123): a random
number of seconds in `min..=max` (or `min` when the range is empty),
saturating-multiplied by 1000. -/
def compute_action_delay (r : ActionConfigResult) (draw : Nat) : Int :=
  let settings := get_delay_settings r
  if settings.1 < settings.2 then
    saturating_mul_1000 (gen_range_draw settings.1 settings.2 draw)
  else saturating_mul_1000 settings.1

/-- The flattened button list
(`message.buttons.iter().flat_map(|row| row.iter())`). -/
def flatten_buttons (message : TelethonMessage) : List TelethonButton :=
  message.buttons.flatten

/-- The yes/no matcher of the `"yes_no"` arm of `select_target_button`
(account_worker.rs, lines 1029-1048). -/
def yes_no_button_match (target_value : String) (b : TelethonButton) : Bool :=
  let text_lower := b.text.toLower
  let tv := target_value.toLower
  if tv == "yes" || tv == "بله" || tv == "آره" then
    containsSubstr text_lower "yes" || containsSubstr text_lower "بله" ||
    containsSubstr text_lower "آره" || containsSubstr text_lower "✓" ||
    containsSubstr text_lower "✅"
  else if tv == "no" || tv == "خیر" || tv == "نه" then
    containsSubstr text_lower "no" || containsSubstr text_lower "خیر" ||
    containsSubstr text_lower "نه" || containsSubstr text_lower "✗" ||
    containsSubstr text_lower "❌"
  else containsSubstr b.text target_value

/-- `AccountWorker::select_target_button` (account_worker.rs, lines
973-1098). `delayDraw` and `idxDraw` are the random draws for the delay and
the fallback index. In the source the `"player_list"` arm and the wildcard
arm are textually identical, so they are merged into the final `else`
branch here; `"yes_no"` and `"fixed"` are checked first, exactly as the
match would. -/
def select_target_button (r : ActionConfigResult) (message : TelethonMessage)
    (delayDraw idxDraw : Nat) : Option (TelethonButton × Int) :=
  let buttons := flatten_buttons message
  if buttons.isEmpty then none
  else
    let delay := compute_action_delay r delayDraw
    let button_type := get_action_button_type r
    let targets := get_target_list r
    let blacklist := get_blacklist r
    if button_type == "yes_no" then
      match buttons.find? (yes_no_button_match ((targets.head?).getD "yes")) with
      | some btn => some (btn, delay)
      | none =>
        if is_random_fallback_enabled r then
          buttons.head?.map (fun btn => (btn, delay))
        else none
    else if button_type == "fixed" then
      match targets.findSome? (fun t => buttons.find? (fun b => b.text == t)) with
      | some btn => some (btn, delay)
      | none =>
        match targets.findSome?
            (fun t => buttons.find? (fun b => containsSubstr b.text t)) with
        | some btn => some (btn, delay)
        | none => none
    else
      match targets.findSome?
          (fun t => buttons.find? (fun b => containsSubstr b.text t)) with
      | some btn => some (btn, delay)
      | none =>
        if is_random_fallback_enabled r then
          let available := buttons.filter (fun b => !(blacklist.contains b.text))
          if available.isEmpty then none
          else some (available.getD (idxDraw % available.length) default, delay)
        else none

/-- A button click dispatched to the Telethon client: the chat, the message
and the button clicked. -/
structure Click where
  chat_id : Int
  message_id : Int
  button : TelethonButton
deriving Repr, DecidableEq

/-- The one-step arm of `AccountWorker::handle_action` (account_worker.rs,
lines 785-812): click the selected button on the triggering message, or do
nothing when no button was selected. -/
def handle_action_one_step (r : ActionConfigResult) (message : TelethonMessage)
    (delayDraw idxDraw : Nat) : List Click :=
  match select_target_button r message delayDraw idxDraw with
  | some sel => [⟨message.chat_id, message.id, sel.1⟩]
  | none => []

/-- The per-strategy no-target-matches condition, read off the branch
conditions of `select_target_button`: for `"yes_no"` no button passes the
yes/no matcher for the first target (default `"yes"`); for `"fixed"` no
target matches any button text exactly nor as a substring; otherwise
(`"player_list"` and the identical default arm) no target is contained in
any button text. -/
def no_target_match (r : ActionConfigResult) (buttons : List TelethonButton) :
    Bool :=
  let targets := get_target_list r
  if get_action_button_type r == "yes_no" then
    (buttons.find?
      (yes_no_button_match ((targets.head?).getD "yes"))).isNone
  else if get_action_button_type r == "fixed" then
    (targets.findSome? (fun t => buttons.find? (fun b => b.text == t))).isNone
    &&
    (targets.findSome?
      (fun t => buttons.find? (fun b => containsSubstr b.text t))).isNone
  else
    (targets.findSome?
      (fun t => buttons.find? (fun b => containsSubstr b.text t))).isNone

/-- C6: for every one-step action whose effective `random_fallback_enabled`
is false, if no configured target matches any inline button of the message
(per the action's `button_type` strategy), `select_target_button` returns
no button and no click is dispatched. -/
theorem c6_no_fallback_no_match_no_click (r : ActionConfigResult)
    (message : TelethonMessage) (delayDraw idxDraw : Nat)
    (hfb : is_random_fallback_enabled r = false)
    (hnm : no_target_match r (flatten_buttons message) = true) :
    select_target_button r message delayDraw idxDraw = none ∧
    handle_action_one_step r message delayDraw idxDraw = [] := by
  have hsel : select_target_button r message delayDraw idxDraw = none := by
    unfold no_target_match at hnm
    cases hbe : (flatten_buttons message).isEmpty with
    | true => simp [select_target_button, hbe]
    | false =>
      cases hyn : (get_action_button_type r == "yes_no") with
      | true =>
        simp only [hyn, if_true] at hnm
        have hfind := Option.isNone_iff_eq_none.mp hnm
        simp [select_target_button, hbe, hyn, hfind, hfb]
      | false =>
        cases hfx : (get_action_button_type r == "fixed") with
        | true =>
          simp only [hyn, hfx, Bool.false_eq_true, if_false, if_true,
            Bool.and_eq_true] at hnm
          have h1 := Option.isNone_iff_eq_none.mp hnm.1
          have h2 := Option.isNone_iff_eq_none.mp hnm.2
          simp [select_target_button, hbe, hyn, hfx, h1, h2]
        | false =>
          simp only [hyn, hfx, Bool.false_eq_true, if_false] at hnm
          have h1 := Option.isNone_iff_eq_none.mp hnm
          simp [select_target_button, hbe, hyn, hfx, h1, hfb]
  exact ⟨hsel, by simp [handle_action_one_step, hsel]⟩

/-- Concrete action configuration with random fallback disabled and a
target that matches nothing. -/
def c6Config : ActionConfigResult :=
  .ok ⟨[], [], ["Alice"], 0, 0, "player_list", false, false⟩

/-- Concrete message whose only button is `"Bob"`. -/
def c6Message : TelethonMessage :=
  ⟨100, 7, 999, "Vote now", false, [[⟨"Bob", "callback", some "d1", none⟩]]⟩

/-- Witness for C6 at the concrete configuration and message. -/
theorem c6_witness :
    select_target_button c6Config c6Message 0 0 = none ∧
    handle_action_one_step c6Config c6Message 0 0 = [] :=
  c6_no_fallback_no_match_no_click c6Config c6Message 0 0 (by decide)
    (by decide)

/-- C10: when the per-(account, action) `ActionConfig` cannot be loaded the
accessors fall back to permissive defaults: random fallback enabled, button
type `"player_list"`, empty targets, blacklist and pairs, default delays,
not two-step; consequently on any message with at least one inline button a
(random, non-blacklisted) button is still selected and exactly one click is
dispatched. -/
theorem c10_loader_error_defaults (e : String) :
    is_random_fallback_enabled (.error e) = true ∧
    get_action_button_type (.error e) = "player_list" ∧
    get_target_list (.error e) = [] ∧
    get_blacklist (.error e) = [] ∧
    get_target_pairs (.error e) = [] ∧
    get_delay_settings (.error e) =
      (DEFAULT_DELAY_MIN_SECONDS, DEFAULT_DELAY_MAX_SECONDS) ∧
    is_two_step_action (.error e) = false ∧
    (∀ (message : TelethonMessage) (d i : Nat),
      (flatten_buttons message).isEmpty = false →
      (select_target_button (.error e) message d i).isSome = true ∧
      (handle_action_one_step (.error e) message d i).length = 1) := by
  refine ⟨rfl, rfl, rfl, rfl, rfl, rfl, rfl, ?_⟩
  intro message d i hbe
  have havail : (flatten_buttons message).filter
      (fun b => !((get_blacklist (.error e)).contains b.text)) =
      flatten_buttons message := by
    apply List.filter_eq_self.mpr
    intro b _
    simp [get_blacklist]
  have hsel : select_target_button (.error e) message d i =
      some ((flatten_buttons message).getD
          (i % (flatten_buttons message).length) default,
        compute_action_delay (.error e) d) := by
    simp only [select_target_button, hbe, Bool.false_eq_true, if_false,
      get_action_button_type, get_target_list, List.findSome?_nil, havail,
      is_random_fallback_enabled, if_true]
    simp [hbe]
  exact ⟨by simp [hsel], by simp [handle_action_one_step, hsel]⟩

/-- Concrete message with two buttons for the C10 witness. -/
def c10Message : TelethonMessage :=
  ⟨100, 7, 999, "Kill someone", false,
    [[⟨"Bob", "callback", some "d1", none⟩],
     [⟨"Carol", "callback", some "d2", none⟩]]⟩

/-- Witness for C10: with an unloadable config a button is still selected
and one click dispatched on a concrete two-button message. -/
theorem c10_witness :
    (select_target_button (.error "Action not found") c10Message 0 1).isSome
      = true ∧
    (handle_action_one_step (.error "Action not found") c10Message 0 1).length
      = 1 :=
  (c10_loader_error_defaults "Action not found").2.2.2.2.2.2.2 c10Message 0 1
    (by decide)

/-! ## Two-step actions (account_worker.rs, lines 117-125, 826-963) -/

/-- `TwoStepCache` (account_worker.rs, lines 119-125). -/
structure TwoStepCache where
  action_id : Int
  first_chat_id : Int
  first_message_id : Int
  first_buttons : List TelethonButton
  selected_a : Option String
deriving Repr, DecidableEq

/-- The `button_has` closure of `handle_two_step_action` (account_worker.rs,
lines 874-876): some button text contains the target. -/
def button_has (list : List TelethonButton) (target : String) : Bool :=
  list.any (fun b => containsSubstr b.text target)

/-- The step-2 pair resolution of `handle_two_step_action` (account_worker.rs,
lines 878-907): the first configured pair whose A occurs on the cached first
prompt and whose B occurs on the current prompt; otherwise, when random
fallback is enabled and both prompts have non-blacklisted buttons, a random
pair (nudged to be distinct when possible), drawn with `aDraw`/`bDraw`. -/
def resolve_pair (r : ActionConfigResult)
    (first_buttons buttons : List TelethonButton) (aDraw bDraw : Nat) :
    Option (String × String) :=
  let blacklist := get_blacklist r
  match (get_target_pairs r).find? (fun pr =>
      button_has first_buttons pr.1 && button_has buttons pr.2) with
  | some pr => some pr
  | none =>
    if is_random_fallback_enabled r then
      let available_a := (first_buttons.filter
        (fun b => !(blacklist.contains b.text))).map (fun b => b.text)
      let available_b := (buttons.map (fun b => b.text)).filter
        (fun t => !(blacklist.contains t))
      if available_a.isEmpty || available_b.isEmpty then none
      else
        let a_idx := aDraw % available_a.length
        let b_idx0 := bDraw % available_b.length
        let b_idx :=
          if available_a.getD a_idx "" == available_b.getD b_idx0 "" &&
              decide (1 < available_b.length) then
            (b_idx0 + 1) % available_b.length
          else b_idx0
        some (available_a.getD a_idx "", available_b.getD b_idx "")
    else none

/-- `AccountWorker::handle_two_step_action` (account_worker.rs, lines
826-953): the clicks dispatched and the updated two-step cache. Step 1
caches the flattened prompt buttons, replacing any entry for the action.
Step 2 looks up the cached entry (doing nothing without one), resolves a
pair, clicks the step-1 button found on the cached prompt (at the cached
chat/message ids) then the step-2 button found on the current message, and
finally drops the cached entry. Delays do not change the click sequence and
are omitted. -/
def handle_two_step_action (r : ActionConfigResult) (action_id : Int)
    (step : Int) (message : TelethonMessage) (cache : List TwoStepCache)
    (aDraw bDraw : Nat) : List Click × List TwoStepCache :=
  let buttons := flatten_buttons message
  if step == 1 then
    ([], (cache.filter (fun en => en.action_id != action_id)) ++
      [⟨action_id, message.chat_id, message.id, buttons, none⟩])
  else if step == 2 then
    match cache.find? (fun en => en.action_id == action_id) with
    | none => ([], cache)
    | some entry =>
      let clicks :=
        match resolve_pair r entry.first_buttons buttons aDraw bDraw with
        | none => []
        | some pr =>
          (match entry.first_buttons.find?
              (fun b => containsSubstr b.text pr.1) with
            | some btn_a =>
              [⟨entry.first_chat_id, entry.first_message_id, btn_a⟩]
            | none => []) ++
          (match buttons.find? (fun b => containsSubstr b.text pr.2) with
            | some btn_b => [⟨message.chat_id, message.id, btn_b⟩]
            | none => [])
      (clicks, cache.filter (fun en => en.action_id != action_id))
  else ([], cache)

theorem containsSubstr_self (s : String) : containsSubstr s s = true := by
  simp [containsSubstr, List.infix_refl]

theorem getD_mem_of_lt {l : List α} {n : Nat} {d : α} (h : n < l.length) :
    l.getD n d ∈ l := by
  induction l generalizing n with
  | nil => simp at h
  | cons a t ih =>
    cases n with
    | zero => simp [List.getD]
    | succ m =>
      have hm : m < t.length := by
        simpa using h
      simp only [List.getD_cons_succ]
      exact List.mem_cons_of_mem a (ih hm)

/-- If `resolve_pair` resolves `(ta, tb)` then some cached first-prompt
button contains `ta` and some current-prompt button contains `tb`. -/
theorem resolve_pair_finds (r : ActionConfigResult)
    (first_buttons buttons : List TelethonButton) (aDraw bDraw : Nat)
    (ta tb : String)
    (h : resolve_pair r first_buttons buttons aDraw bDraw = some (ta, tb)) :
    (∃ ba ∈ first_buttons, containsSubstr ba.text ta = true) ∧
    (∃ bb ∈ buttons, containsSubstr bb.text tb = true) := by
  unfold resolve_pair at h
  cases hfind : (get_target_pairs r).find? (fun pr =>
      button_has first_buttons pr.1 && button_has buttons pr.2) with
  | some pr =>
    rw [hfind] at h
    have hpr : pr = (ta, tb) := Option.some.inj h
    have hp := List.find?_some hfind
    rw [hpr] at hp
    simp only [Bool.and_eq_true, button_has, List.any_eq_true] at hp
    exact ⟨hp.1, hp.2⟩
  | none =>
    rw [hfind] at h
    cases hrf : is_random_fallback_enabled r with
    | false => simp [hrf] at h
    | true =>
      simp only [hrf, if_true] at h
      cases hemp : (((first_buttons.filter (fun b =>
          !((get_blacklist r).contains b.text))).map (fun b => b.text)).isEmpty
          || ((buttons.map (fun b => b.text)).filter (fun t =>
            !((get_blacklist r).contains t))).isEmpty) with
      | true => rw [hemp] at h; simp at h
      | false =>
        rw [hemp] at h
        have hsplit := Prod.mk.injEq ta tb _ _ ▸ (Option.some.inj h).symm
        have hempA : ((first_buttons.filter (fun b =>
            !((get_blacklist r).contains b.text))).map
              (fun b => b.text)).isEmpty = false := by
          rcases Bool.or_eq_false_iff.mp hemp with ⟨h1, _⟩
          exact h1
        have hempB : ((buttons.map (fun b => b.text)).filter (fun t =>
            !((get_blacklist r).contains t))).isEmpty = false := by
          rcases Bool.or_eq_false_iff.mp hemp with ⟨_, h2⟩
          exact h2
        have hlenA : 0 < ((first_buttons.filter (fun b =>
            !((get_blacklist r).contains b.text))).map
              (fun b => b.text)).length := by
          cases hl : (first_buttons.filter (fun b =>
              !((get_blacklist r).contains b.text))).map (fun b => b.text) with
          | nil => rw [hl] at hempA; simp at hempA
          | cons x xs => simp [hl]
        have hlenB : 0 < ((buttons.map (fun b => b.text)).filter (fun t =>
            !((get_blacklist r).contains t))).length := by
          cases hl : (buttons.map (fun b => b.text)).filter (fun t =>
              !((get_blacklist r).contains t)) with
          | nil => rw [hl] at hempB; simp at hempB
          | cons x xs => simp [hl]
        constructor
        · have hta : ta ∈ (first_buttons.filter (fun b =>
              !((get_blacklist r).contains b.text))).map (fun b => b.text) := by
            rw [hsplit.1]
            exact getD_mem_of_lt (Nat.mod_lt _ hlenA)
          rcases List.mem_map.mp hta with ⟨ba, hba, hba2⟩
          refine ⟨ba, List.mem_of_mem_filter hba, ?_⟩
          rw [← hba2]
          exact containsSubstr_self ba.text
        · have htb : tb ∈ (buttons.map (fun b => b.text)).filter (fun t =>
              !((get_blacklist r).contains t)) := by
            rw [hsplit.2]
            split
            · exact getD_mem_of_lt (Nat.mod_lt _ hlenB)
            · exact getD_mem_of_lt (Nat.mod_lt _ hlenB)
          rcases List.mem_map.mp (List.mem_of_mem_filter htb) with ⟨bb, hbb, hbb2⟩
          refine ⟨bb, hbb, ?_⟩
          rw [← hbb2]
          exact containsSubstr_self bb.text

/-- The two-step cache never keeps an entry for an action after the
step-2 `retain`. -/
theorem find?_filter_ne_none (cache : List TwoStepCache) (action_id : Int) :
    (cache.filter (fun en => en.action_id != action_id)).find?
      (fun en => en.action_id == action_id) = none := by
  apply List.find?_eq_none.mpr
  intro x hx
  have hne := List.of_mem_filter hx
  simpa using hne

/-- C5: for every two-step action, a step-2 detection with no cached step-1
entry for the action produces no button click; when a pair `(A, B)` is
resolved (from the configured pair list in order, or by random fallback)
exactly two clicks are dispatched, the step-1 button (a cached first-prompt
button containing `A`, clicked at the cached chat and message ids) before
the step-2 button (a current-prompt button containing `B`); and the cached
step-1 entry is removed after step-2 processing. -/
theorem c5_two_step_pairing (r : ActionConfigResult) (action_id : Int)
    (message : TelethonMessage) (cache : List TwoStepCache)
    (aDraw bDraw : Nat) :
    (cache.find? (fun en => en.action_id == action_id) = none →
      (handle_two_step_action r action_id 2 message cache aDraw bDraw).1 = [])
    ∧
    (∀ entry, cache.find? (fun en => en.action_id == action_id) = some entry →
      ∀ ta tb,
        resolve_pair r entry.first_buttons (flatten_buttons message) aDraw
          bDraw = some (ta, tb) →
        ((handle_two_step_action r action_id 2 message cache aDraw
            bDraw).1.map (fun c => (c.chat_id, c.message_id))) =
          [(entry.first_chat_id, entry.first_message_id),
            (message.chat_id, message.id)] ∧
        (∀ c0 ∈ (handle_two_step_action r action_id 2 message cache aDraw
            bDraw).1.take 1,
          c0.button ∈ entry.first_buttons ∧
            containsSubstr c0.button.text ta = true) ∧
        (∀ c1 ∈ (handle_two_step_action r action_id 2 message cache aDraw
            bDraw).1.drop 1,
          c1.button ∈ flatten_buttons message ∧
            containsSubstr c1.button.text tb = true)) ∧
    ((handle_two_step_action r action_id 2 message cache aDraw bDraw).2.find?
      (fun en => en.action_id == action_id) = none) := by
  refine ⟨?_, ?_, ?_⟩
  · intro hnone
    simp [handle_two_step_action, hnone]
  · intro entry hfind ta tb hres
    rcases resolve_pair_finds r entry.first_buttons (flatten_buttons message)
      aDraw bDraw ta tb hres with ⟨⟨ba, hba, hbat⟩, ⟨bb, hbb, hbbt⟩⟩
    have hfa : (entry.first_buttons.find?
        (fun b => containsSubstr b.text ta)).isSome = true :=
      List.find?_isSome.mpr ⟨ba, hba, hbat⟩
    obtain ⟨btnA, hfa2⟩ := Option.isSome_iff_exists.mp hfa
    have hfb : ((flatten_buttons message).find?
        (fun b => containsSubstr b.text tb)).isSome = true :=
      List.find?_isSome.mpr ⟨bb, hbb, hbbt⟩
    obtain ⟨btnB, hfb2⟩ := Option.isSome_iff_exists.mp hfb
    have hha : (handle_two_step_action r action_id 2 message cache aDraw
        bDraw).1 =
        [⟨entry.first_chat_id, entry.first_message_id, btnA⟩,
          ⟨message.chat_id, message.id, btnB⟩] := by
      simp [handle_two_step_action, hfind, hres, hfa2, hfb2]
    refine ⟨by simp [hha], ?_, ?_⟩
    · intro c0 hc0
      rw [hha] at hc0
      simp only [List.take_succ_cons, List.take_zero, List.mem_singleton]
        at hc0
      subst hc0
      have hpa : containsSubstr btnA.text ta = true := by
        simpa using List.find?_some hfa2
      exact ⟨List.mem_of_find?_eq_some hfa2, hpa⟩
    · intro c1 hc1
      rw [hha] at hc1
      simp only [List.drop_succ_cons, List.drop_zero, List.mem_singleton]
        at hc1
      subst hc1
      have hpb : containsSubstr btnB.text tb = true := by
        simpa using List.find?_some hfb2
      exact ⟨List.mem_of_find?_eq_some hfb2, hpb⟩
  · cases hfind : cache.find? (fun en => en.action_id == action_id) with
    | none => simp [handle_two_step_action, hfind]
    | some entry =>
      simp [handle_two_step_action, hfind, find?_filter_ne_none]

/-- Concrete two-step action configuration with the single pair
`("A", "B")`. -/
def c5Config : ActionConfigResult :=
  .ok ⟨[("A", "B")], [], [], 0, 0, "player_list", false, true⟩

/-- Concrete cached step-1 entry for action `9`. -/
def c5Entry : TwoStepCache :=
  ⟨9, 70, 700, [⟨"A", "callback", some "ca", none⟩], none⟩

/-- Concrete two-step cache. -/
def c5Cache : List TwoStepCache := [c5Entry]

/-- Concrete step-2 prompt message. -/
def c5Message : TelethonMessage :=
  ⟨800, 71, 999, "choose partner", false,
    [[⟨"B", "callback", some "cb", none⟩]]⟩

/-- Witness for C5: on the concrete two-step run the two clicks are
dispatched at the cached ids then the current ids, and the cache entry is
gone. -/
theorem c5_witness :
    ((handle_two_step_action c5Config 9 2 c5Message c5Cache 0 0).1.map
      (fun c => (c.chat_id, c.message_id))) = [(70, 700), (71, 800)] ∧
    ((handle_two_step_action c5Config 9 2 c5Message c5Cache 0 0).2.find?
      (fun en => en.action_id == 9)) = none := by
  have h := c5_two_step_pairing c5Config 9 c5Message c5Cache 0 0
  exact ⟨(h.2.1 c5Entry (by decide) "A" "B" (by decide)).1, h.2.2⟩

/-! ## Reconnection backoff (account_worker.rs, constants.rs) -/

/-- `constants.rs` `TELETHON_MAX_RECONNECT_ATTEMPTS`. -/
def TELETHON_MAX_RECONNECT_ATTEMPTS : Nat := 5

/-- `constants.rs` `TELETHON_RECONNECT_DELAY_BASE_MS`. -/
def TELETHON_RECONNECT_DELAY_BASE_MS : Nat := 1000

/-- `constants.rs` `TELETHON_RECONNECT_DELAY_MAX_MS`. -/
def TELETHON_RECONNECT_DELAY_MAX_MS : Nat := 30000

/-- `constants.rs` `TELETHON_RECONNECT_BACKOFF_MULTIPLIER` (the f64 `2.0`;
`1000.0 * 2.0^k` and the `as u64` cast are exact for every `k` involved, so
the computation is modelled over `Nat`). -/
def TELETHON_RECONNECT_BACKOFF_MULTIPLIER : Nat := 2

/-- `AccountWorker::calculate_reconnect_delay` (account_worker.rs, lines
1382-1387): `min(base * multiplier^reconnect_attempts, cap)`, evaluated at
the CURRENT value of the `reconnect_attempts` counter. -/
def calculate_reconnect_delay (reconnect_attempts : Nat) : Nat :=
  min (TELETHON_RECONNECT_DELAY_BASE_MS *
      TELETHON_RECONNECT_BACKOFF_MULTIPLIER ^ reconnect_attempts)
    TELETHON_RECONNECT_DELAY_MAX_MS

/-- `WorkerState` (account_worker.rs, lines 28-34). -/
inductive WorkerState where
  | stopped
  | starting
  | running
  | stopping
  | error (msg : String)
deriving Repr, DecidableEq

/-- The pre-spawn behaviour of one `AccountWorker::attempt_reconnect` call
(account_worker.rs, lines 1390-1412): at or above the attempt cap it
returns `false` without sleeping or incrementing; below it, the counter is
incremented FIRST and the worker then sleeps `calculate_reconnect_delay`
evaluated at the incremented counter, before respawning the client. -/
inductive ReconnectStep where
  | give_up
  | attempt (sleep_ms : Nat) (new_attempts : Nat)
deriving Repr, DecidableEq

/-- One `attempt_reconnect` call as a function of the current counter. -/
def attempt_reconnect_step (reconnect_attempts : Nat) : ReconnectStep :=
  if reconnect_attempts ≥ TELETHON_MAX_RECONNECT_ATTEMPTS then .give_up
  else .attempt (calculate_reconnect_delay (reconnect_attempts + 1))
    (reconnect_attempts + 1)

/-- `AccountWorker::handle_connection_lost` (account_worker.rs, lines
1465-1546) in the run where the worker stays `Running` and every respawn
fails: the sequence of backoff sleeps performed and the final worker state.
After each failed attempt the loop re-checks the counter and transitions to
`Error` once it has reached the cap, making no further attempt. -/
def handle_connection_lost_all_fail (reconnect_attempts : Nat) :
    List Nat × WorkerState :=
  if reconnect_attempts ≥ TELETHON_MAX_RECONNECT_ATTEMPTS then
    ([], .error "Failed to reconnect after 5 attempts")
  else
    let rest := handle_connection_lost_all_fail (reconnect_attempts + 1)
    (calculate_reconnect_delay (reconnect_attempts + 1) :: rest.1, rest.2)
termination_by TELETHON_MAX_RECONNECT_ATTEMPTS - reconnect_attempts
decreasing_by
  simp only [TELETHON_MAX_RECONNECT_ATTEMPTS] at *
  omega

/-- C3 counterexample: starting from a fresh counter the five backoff
sleeps performed by the code are 2, 4, 8, 16 and 30 seconds, not the
1, 2, 4, 8, 16 seconds (`base * multiplier^(k-1)`) the claim states: the
counter is incremented before the delay is computed, so the k-th attempt
sleeps `min(base * multiplier^k, cap)`. -/
theorem reconnect_all_fail_step (r : Nat)
    (h : r < TELETHON_MAX_RECONNECT_ATTEMPTS) :
    handle_connection_lost_all_fail r =
      (calculate_reconnect_delay (r + 1) ::
        (handle_connection_lost_all_fail (r + 1)).1,
        (handle_connection_lost_all_fail (r + 1)).2) := by
  rw [handle_connection_lost_all_fail]
  simp [Nat.not_le.mpr h]

theorem reconnect_all_fail_base :
    handle_connection_lost_all_fail TELETHON_MAX_RECONNECT_ATTEMPTS =
      ([], .error "Failed to reconnect after 5 attempts") := by
  rw [handle_connection_lost_all_fail]
  simp

theorem reconnect_all_fail_run :
    handle_connection_lost_all_fail 0 =
      ([2000, 4000, 8000, 16000, 30000],
        .error "Failed to reconnect after 5 attempts") := by
  have h5 := reconnect_all_fail_base
  have h4 := reconnect_all_fail_step 4 (by decide)
  have h3 := reconnect_all_fail_step 3 (by decide)
  have h2 := reconnect_all_fail_step 2 (by decide)
  have h1 := reconnect_all_fail_step 1 (by decide)
  have h0 := reconnect_all_fail_step 0 (by decide)
  rw [h0, h1, h2, h3]
  rw [show (4 : Nat) + 1 = TELETHON_MAX_RECONNECT_ATTEMPTS from rfl] at h4
  rw [h4, h5]
  decide

/-- C3 counterexample: starting from a fresh counter the five backoff
sleeps performed by the code are 2, 4, 8, 16 and 30 seconds, not the
1, 2, 4, 8, 16 seconds (`base * multiplier^(k-1)`) the claim states: the
counter is incremented before the delay is computed, so the k-th attempt
sleeps `min(base * multiplier^k, cap)`. -/
theorem c3_counterexample :
    (handle_connection_lost_all_fail 0).1 =
      [2000, 4000, 8000, 16000, 30000] ∧
    [2000, 4000, 8000, 16000, 30000] ≠
      [1000, 2000, 4000, 8000, 16000] ∧
    TELETHON_RECONNECT_DELAY_BASE_MS *
      TELETHON_RECONNECT_BACKOFF_MULTIPLIER ^ (1 - 1) = 1000 := by
  refine ⟨?_, by decide, by decide⟩
  rw [reconnect_all_fail_run]

/-- C3 amended: on a recoverable connection loss the k-th reconnection
attempt (k = 1..5) sleeps `min(base * multiplier^k, 30000)` milliseconds
before respawning the client — 2, 4, 8, 16, 30 seconds — because the
attempt counter is incremented before the delay is computed; after 5 failed
attempts the worker enters the `Error` state and a further
`attempt_reconnect` call gives up without a sixth attempt. -/
theorem c3_reconnect_backoff_delays :
    (handle_connection_lost_all_fail 0).1 =
      [2000, 4000, 8000, 16000, 30000] ∧
    (handle_connection_lost_all_fail 0).1.length = 5 ∧
    (handle_connection_lost_all_fail 0).2 =
      .error "Failed to reconnect after 5 attempts" ∧
    attempt_reconnect_step TELETHON_MAX_RECONNECT_ATTEMPTS = .give_up ∧
    (∀ k : Fin 5, (handle_connection_lost_all_fail 0).1.getD k.val 0 =
      min (TELETHON_RECONNECT_DELAY_BASE_MS *
          TELETHON_RECONNECT_BACKOFF_MULTIPLIER ^ (k.val + 1))
        TELETHON_RECONNECT_DELAY_MAX_MS) := by
  have hrun := reconnect_all_fail_run
  refine ⟨by rw [hrun], by rw [hrun]; rfl, by rw [hrun], by decide, ?_⟩
  intro k
  rw [hrun]
  fin_cases k <;> decide

/-! ## Worker manager (src/workers/manager.rs) -/

/-- `WorkerHandle` (manager.rs, lines 29-34): `live` models
`!task_handle.is_finished()`; the command channel is not modelled. -/
structure WorkerHandle where
  account_id : Int
  account_name : String
  live : Bool
deriving Repr, DecidableEq

/-- The supervisor registry `HashMap<i64, WorkerHandle>`, modelled as an
association list; `HashMap` semantics keep at most one entry per key. -/
abbrev Registry := List (Int × WorkerHandle)

/-- `HashMap::get`. -/
def lookupHandle (reg : Registry) (id : Int) : Option WorkerHandle :=
  (reg.find? (fun e => e.1 == id)).map (fun e => e.2)

/-- `HashMap::insert` (replaces any entry with the same key). -/
def insertHandle (reg : Registry) (id : Int) (h : WorkerHandle) : Registry :=
  (id, h) :: reg.filter (fun e => e.1 != id)

/-- `HashMap::remove`. -/
def removeHandle (reg : Registry) (id : Int) : Registry :=
  reg.filter (fun e => e.1 != id)

/-- The key-uniqueness invariant of the registry. -/
def KeysNodup (reg : Registry) : Prop :=
  (reg.map (fun e => e.1)).Nodup

/-- The part of `WorkerManager::start_account` after the liveness check
(manager.rs, lines 107-314): the config store reads, credential checks and
session-directory checks are collapsed into the abstract `precheck` result,
which on success yields the handle of the freshly spawned task; the handle
is stored with `HashMap::insert`. The returned flag records whether a task
was spawned. -/
def start_account_proceed (reg : Registry) (id : Int)
    (precheck : Except String WorkerHandle) :
    Except String Registry × Bool :=
  match precheck with
  | .error e => (.error e, false)
  | .ok h => (.ok (insertHandle reg id h), true)

/-- `WorkerManager::start_account` (manager.rs, lines 95-317) restricted to
its registry effect: when the registry already holds a handle with a live
(unfinished) task for the account it fails with
`"Account <id> is already running"` without spawning (lines 97-104);
otherwise it proceeds, and a dead leftover entry is replaced by the
insert. -/
def start_account (reg : Registry) (id : Int)
    (precheck : Except String WorkerHandle) :
    Except String Registry × Bool :=
  match lookupHandle reg id with
  | some h =>
    if h.live then
      (.error ("Account " ++ toString id ++ " is already running"), false)
    else start_account_proceed reg id precheck
  | none => start_account_proceed reg id precheck

theorem keysNodup_filter (reg : Registry) (p : Int × WorkerHandle → Bool)
    (hnd : KeysNodup reg) : KeysNodup (reg.filter p) := by
  unfold KeysNodup at *
  exact hnd.sublist ((List.filter_sublist reg).map (fun e => e.1))

theorem keysNodup_insertHandle (reg : Registry) (id : Int) (h : WorkerHandle)
    (hnd : KeysNodup reg) : KeysNodup (insertHandle reg id h) := by
  unfold KeysNodup insertHandle
  rw [List.map_cons]
  refine List.nodup_cons.mpr ⟨?_, keysNodup_filter reg _ hnd⟩
  intro hmem
  rcases List.mem_map.mp hmem with ⟨e, he, hek⟩
  have hne := List.of_mem_filter he
  rw [hek] at hne
  simp at hne

theorem keysNodup_removeHandle (reg : Registry) (id : Int)
    (hnd : KeysNodup reg) : KeysNodup (removeHandle reg id) :=
  keysNodup_filter reg _ hnd

theorem lookup_removeHandle (reg : Registry) (id : Int) :
    lookupHandle (removeHandle reg id) id = none := by
  unfold lookupHandle removeHandle
  rw [List.find?_eq_none.mpr]
  · rfl
  · intro e he
    have hne := List.of_mem_filter he
    simpa using hne

theorem filter_key_length_le_one (reg : Registry) (id : Int)
    (hnd : KeysNodup reg) :
    (reg.filter (fun e => e.1 == id)).length ≤ 1 := by
  induction reg with
  | nil => simp
  | cons e t ih =>
    have hnd2 : KeysNodup t := by
      unfold KeysNodup at hnd ⊢
      rw [List.map_cons] at hnd
      exact (List.nodup_cons.mp hnd).2
    have hnotin : e.1 ∉ t.map (fun x => x.1) := by
      unfold KeysNodup at hnd
      rw [List.map_cons] at hnd
      exact (List.nodup_cons.mp hnd).1
    rw [List.filter_cons]
    cases hk : (e.1 == id) with
    | false => simpa using ih hnd2
    | true =>
      have he : e.1 = id := by simpa using hk
      have ht : t.filter (fun x => x.1 == id) = [] := by
        apply List.filter_eq_nil_iff.mpr
        intro x hx hxk
        apply hnotin
        have hx1 : x.1 = id := by simpa using hxk
        rw [he, ← hx1]
        exact List.mem_map.mpr ⟨x, hx, rfl⟩
      simp [ht]

/-- C7: the supervisor registry holds at most one handle per `account_id`
(its key-uniqueness invariant is preserved by every registry operation
`start_account` and the task-exit removal perform), and `start_account`
returns an error without spawning when a live handle already exists for the
account. -/
theorem c7_single_live_worker (reg : Registry) (id : Int)
    (precheck : Except String WorkerHandle) (hnd : KeysNodup reg) :
    ((reg.filter (fun e => e.1 == id)).length ≤ 1) ∧
    (∀ h, lookupHandle reg id = some h → h.live = true →
      start_account reg id precheck =
        (.error ("Account " ++ toString id ++ " is already running"), false))
    ∧
    (∀ reg2, (start_account reg id precheck).1 = .ok reg2 → KeysNodup reg2) ∧
    KeysNodup (removeHandle reg id) := by
  refine ⟨filter_key_length_le_one reg id hnd, ?_, ?_, ?_⟩
  · intro h hlook hlive
    simp [start_account, hlook, hlive]
  · intro reg2 hok
    unfold start_account start_account_proceed at hok
    cases hlook : lookupHandle reg id with
    | some h =>
      rw [hlook] at hok
      cases hlive : h.live with
      | true => simp [hlive] at hok
      | false =>
        simp only [hlive, Bool.false_eq_true, if_false] at hok
        cases precheck with
        | error e => simp at hok
        | ok hd =>
          simp only [Except.ok.injEq] at hok
          rw [← hok]
          exact keysNodup_insertHandle reg id hd hnd
    | none =>
      rw [hlook] at hok
      cases precheck with
      | error e => simp at hok
      | ok hd =>
        simp only [Except.ok.injEq] at hok
        rw [← hok]
        exact keysNodup_insertHandle reg id hd hnd
  · exact keysNodup_removeHandle reg id hnd

/-- Concrete registry with one live handle for account 1. -/
def c7Registry : Registry := [(1, ⟨1, "acct", true⟩)]

/-- Witness for C7 at the concrete registry: a second start fails without
spawning, and the registry keeps at most one entry for the account. -/
theorem c7_witness :
    start_account c7Registry 1 (.ok ⟨1, "acct", true⟩) =
      (.error "Account 1 is already running", false) ∧
    (c7Registry.filter (fun e => e.1 == 1)).length ≤ 1 := by
  have h := c7_single_live_worker c7Registry 1 (.ok ⟨1, "acct", true⟩)
    (by unfold KeysNodup; decide)
  exact ⟨h.2.1 ⟨1, "acct", true⟩ (by decide) rfl, h.1⟩

/-- The per-cycle outcomes of the spawned worker task (manager.rs, lines
242-303): the worker either fails to start, starts and later exits its main
loop with an error, or starts and exits cleanly. -/
inductive WorkerRunOutcome where
  | start_failed (err : String)
  | loop_failed (err : String)
  | completed
deriving Repr, DecidableEq

/-- The account-status values written to the store by the spawned task over
one cycle, in order (manager.rs, lines 242-303): `running` after a
successful start (line 260); `error` when the start fails (line 281) or
when the loop exits with an error (written on the worker's fatal paths,
account_worker.rs lines 1294-1297 and 1516-1522); and then, in the cleanup
block that runs on every exit path (manager.rs lines 292-300), `stopped` —
unconditionally. -/
def task_status_writes : WorkerRunOutcome → List String
  | .start_failed _ => ["error", "stopped"]
  | .loop_failed _ => ["running", "error", "stopped"]
  | .completed => ["running", "stopped"]

/-- The task-exit cleanup (manager.rs, lines 292-300): remove the registry
entry and write the account status `stopped`, whatever status was written
earlier in the cycle. -/
def task_exit_cleanup (reg : Registry) (id : Int) : Registry × String :=
  (removeHandle reg id, "stopped")

/-- C4 counterexample: in a cycle that set the account status to `error`
(the worker loop failed), the task exit still writes `stopped` as the final
status — the `error` status is overwritten, contrary to the claim that it
is preserved. -/
theorem c4_counterexample :
    task_status_writes (.loop_failed "network error") =
      ["running", "error", "stopped"] ∧
    "error" ∈ task_status_writes (.loop_failed "network error") ∧
    (task_status_writes (.loop_failed "network error")).getLast? =
      some "stopped" ∧
    some ("stopped" : String) ≠ some "error" := by
  refine ⟨rfl, by decide, rfl, by decide⟩

/-- C4 amended: when a worker task spawned by `start_account` exits for any
reason, the supervisor removes the registry entry and writes the account
status `stopped` unconditionally — the last status written in every cycle
is `stopped`, and an `error` status set during the cycle is overwritten
rather than preserved. -/
theorem c4_task_exit_writes_stopped (reg : Registry) (id : Int)
    (outcome : WorkerRunOutcome) :
    lookupHandle (task_exit_cleanup reg id).1 id = none ∧
    (task_exit_cleanup reg id).2 = "stopped" ∧
    (task_status_writes outcome).getLast? = some "stopped" := by
  refine ⟨lookup_removeHandle reg id, rfl, ?_⟩
  cases outcome <;> rfl

end QManager
